import Mathlib

/-!
Shallow embedding of `app/views.py`: a Django record-management application.
Users sign up / sign in, create / edit / delete contract records, list them
(scoped to their own account unless they are a superuser), and export the
visible set to a spreadsheet.  Each Django view function is translated into a
pure Lean function over an explicit request (requesting user, method, form
data) and an explicit database state.  A Python exception that escapes a view
is modelled as `Except.error`; a view that returns an HTTP response yields a
`Response` value.
-/

namespace App

/-- A Django user (`request.user`): primary key, username, password,
`is_superuser` and `is_authenticated` flags. -/
structure User where
  uid : Nat
  username : String
  password : String
  is_superuser : Bool
  is_authenticated : Bool
deriving Repr, DecidableEq

/-- The `MyTable` model (`app/models.py`): one contract record.  Field names
follow the `values_list` calls in `export_excel`.  Cell values are kept as the
strings they are rendered to (`str(...)` in the export loop). -/
structure MyTable where
  id : Nat
  user : User
  client_name : String
  date : String
  modified_at : String
  contact_number : String
  vendor_name : String
  vendor_company : String
  rate : String
  currency : String
  contract_type : String
  status : String
  comments : String
deriving Repr, DecidableEq

/-- The HTTP responses the views can produce.  `rendered` carries the record
set passed to the template context, `file` carries the spreadsheet filename
and its rows of cells. -/
inductive Response where
  | rendered (tmpl : String) (records : List MyTable)
  | redirect (target : String)
  | forbidden (msg : String)
  | serverError (msg : String)
  | file (filename : String) (sheet : List (List String))
deriving Repr, DecidableEq

/-- The database: the `MyTable` rows plus the autoincrement primary-key
counter the store assigns to the next saved record. -/
structure DB where
  records : List MyTable
  next_id : Nat
deriving Repr, DecidableEq

/-- `MyTable.objects.get(id=i)`: the row with primary key `i`, if any. -/
def DB.get (db : DB) (i : Nat) : Option MyTable :=
  db.records.find? (fun r => r.id == i)

/-- Well-formed store: every existing primary key is below the autoincrement
counter, as the underlying database guarantees. -/
def DB.wf (db : DB) : Bool :=
  db.records.all (fun r => r.id < db.next_id)

/-- The GET query string of a list request: field name / desired value pairs. -/
abbrev FilterParams := List (String × String)

/-- The filterable fields of a record, by name; a name outside the schema has
no value. -/
def fieldValue (r : MyTable) (f : String) : Option String :=
  if f = "client_name" then some r.client_name
  else if f = "date" then some r.date
  else if f = "modified_at" then some r.modified_at
  else if f = "contact_number" then some r.contact_number
  else if f = "vendor_name" then some r.vendor_name
  else if f = "vendor_company" then some r.vendor_company
  else if f = "rate" then some r.rate
  else if f = "currency" then some r.currency
  else if f = "contract_type" then some r.contract_type
  else if f = "status" then some r.status
  else if f = "comments" then some r.comments
  else none

/-- Whether a record satisfies one supplied constraint; a constraint on a
field outside the schema is passthrough. -/
def matchesParam (r : MyTable) (p : String × String) : Bool :=
  match fieldValue r p.1 with
  | some v => v == p.2
  | none => true

/-- Modelled from the spec: the Filter Layer (`FormFilter` of `app/filters.py`,
which is not under `src/`).  Per §4.2 it applies the user-supplied field
constraints as an additional predicate over the already-scoped record set;
unspecified fields are passthrough (no filtering applied). -/
def FormFilter (params : FilterParams) (qs : List MyTable) : List MyTable :=
  qs.filter (fun r => params.all (matchesParam r))

/-- The access-scoping rule of the `details` and `export_excel` views: a
superuser sees `MyTable.objects.all()`, anyone else sees
`MyTable.objects.filter(user=request.user)`. -/
def scopedRecords (u : User) (records : List MyTable) : List MyTable :=
  if u.is_superuser then records else records.filter (fun r => r.user == u)

/-- The `details` view.  `@login_required` redirects an unauthenticated
requester to `signin`; otherwise the scoped record set, narrowed by the
`FormFilter` over the GET parameters, is rendered (the filtered queryset is
the record set handed to the template context). -/
def details (u : User) (params : FilterParams) (db : DB) : Response :=
  if !u.is_authenticated then .redirect "signin"
  else .rendered "details.html" (FormFilter params (scopedRecords u db.records))

/-- Modelled from the spec: `MyTableForm` (`app/forms.py`, which is not under
`src/`).  `is_valid` is the validation verdict; `instance_data` is the record
assembled from the submitted fields, carrying whatever owner value the
submission contained (the views overwrite or preserve the owner themselves). -/
structure MyTableForm where
  is_valid : Bool
  instance_data : MyTable
deriving Repr, DecidableEq

/-- Modelled from the spec: saving a bound `MyTableForm` on an existing
instance (`MyTableForm(request.POST, instance=edit_detail)` followed by
`form.save()`).  Per the §3 invariant the owner is set at creation time and
never reassigned, so the form's field set excludes the owner: the save
updates the contract fields and preserves the primary key and the owner. -/
def MyTableForm.saveInstance (form : MyTableForm) (inst : MyTable) : MyTable :=
  { form.instance_data with id := inst.id, user := inst.user }

/-- The `addnew` view: on a valid POST, `form.save(commit=False)` builds the
entry, `new_entry.user = request.user` overwrites its owner, and the save
assigns the next primary key; otherwise the form page is re-rendered. -/
def addnew (u : User) (method_post : Bool) (form : MyTableForm) (db : DB) :
    Response × DB :=
  if !u.is_authenticated then (.redirect "signin", db)
  else if method_post && form.is_valid then
    let new_entry : MyTable := { form.instance_data with id := db.next_id, user := u }
    (.redirect "details",
      { records := db.records ++ [new_entry], next_id := db.next_id + 1 })
  else (.rendered "form.html" [], db)

/-- The `edit` view: `MyTable.objects.get(id=req_id)` (a missing id raises
`DoesNotExist`, caught and answered with a server error), then the ownership
check (403 on failure), then on a valid POST the bound form is saved onto the
instance; otherwise the edit page is rendered. -/
def edit (u : User) (req_id : Nat) (method_post : Bool) (form : MyTableForm)
    (db : DB) : Response × DB :=
  if !u.is_authenticated then (.redirect "signin", db)
  else
    match db.get req_id with
    | none => (.serverError "Record not found.", db)
    | some edit_detail =>
      if !(edit_detail.user == u || u.is_superuser) then
        (.forbidden "You do not have permission to edit this record.", db)
      else if method_post && form.is_valid then
        (.redirect "details",
          { db with records :=
              db.records.map (fun r => if r.id == req_id then form.saveInstance r else r) })
      else (.rendered "edit.html" [edit_detail], db)

/-- The `delete` view: `MyTable.objects.get(id=req_id)` (missing id → server
error), then the ownership check (403 on failure), then `detail.delete()`. -/
def delete (u : User) (req_id : Nat) (db : DB) : Response × DB :=
  if !u.is_authenticated then (.redirect "signin", db)
  else
    match db.get req_id with
    | none => (.serverError "Record not found.", db)
    | some detail =>
      if !(detail.user == u || u.is_superuser) then
        (.forbidden "You do not have permission to delete this record.", db)
      else
        (.redirect "details",
          { db with records := db.records.filter (fun r => !(r.id == req_id)) })

/-- The superuser column header row of `export_excel` (12 columns, the extra
last one being `User`). -/
def adminColumns : List String :=
  ["Client Name", "Entry Date", "Modified At", "Contact Number", "Vendor Name",
   "Vendor Company", "Rate", "Currency", "Contract Type", "Status", "Comments",
   "User"]

/-- The non-superuser column header row of `export_excel` (11 columns). -/
def userColumns : List String :=
  ["Client Name", "Entry Date", "Modified At", "Contact Number", "Vendor Name",
   "Vendor Company", "Rate", "Currency", "Contract Type", "Status", "Comments"]

/-- The superuser `values_list` row of one record (12 cells, ending with
`user__username`). -/
def adminRow (r : MyTable) : List String :=
  [r.client_name, r.date, r.modified_at, r.contact_number, r.vendor_name,
   r.vendor_company, r.rate, r.currency, r.contract_type, r.status, r.comments,
   r.user.username]

/-- The non-superuser `values_list` row of one record (11 cells). -/
def userRow (r : MyTable) : List String :=
  [r.client_name, r.date, r.modified_at, r.contact_number, r.vendor_name,
   r.vendor_company, r.rate, r.currency, r.contract_type, r.status, r.comments]

/-- The sheet `export_excel` writes: the role-specific header row, then one
row per record of the role-specific queryset (`MyTable.objects.all()` for a
superuser, `MyTable.objects.filter(user=request.user)` otherwise). -/
def exportSheet (u : User) (db : DB) : List (List String) :=
  if u.is_superuser then adminColumns :: db.records.map adminRow
  else userColumns :: (db.records.filter (fun r => r.user == u)).map userRow

/-- The `export_excel` view.  It carries no `@login_required` decorator and no
exception handler.  `save` models the external xlwt serialization
(`wbook.save(response)` and the cell writes), which may raise; a raised error
escapes the view uncaught (`Except.error`).  On success the response is the
attachment `Data_<timestamp>.xls` holding the computed sheet. -/
def export_excel (u : User) (now : String) (db : DB)
    (save : List (List String) → Except String Unit) : Except String Response :=
  match save (exportSheet u db) with
  | .error e => .error e
  | .ok _ => .ok (.file ("Data_" ++ now ++ ".xls") (exportSheet u db))

/-- Modelled from the spec: the sign-up / login form data (`SignUpForm` and
`LoginForm` of `app/forms.py`, which is not under `src/`): the credentials
submitted and the validation verdict. -/
structure AuthForm where
  is_valid : Bool
  username : String
  password : String
deriving Repr, DecidableEq

/-- Modelled from the spec: the session-establishment state the external
authentication subsystem keeps — the registered accounts
(username / password) and the current session, if any. -/
structure AuthState where
  accounts : List (String × String)
  session : Option String
deriving Repr, DecidableEq

/-- Modelled from the spec: `authenticate(request, username=..., password=...)`
succeeds exactly when the credentials match a registered account. -/
def authenticate (st : AuthState) (username password : String) : Bool :=
  st.accounts.contains (username, password)

/-- The `signup` view: an already-authenticated requester is redirected to
`details` at once; otherwise a valid POST saves the new account and redirects
to `signin`, and anything else re-renders the sign-up page. -/
def signup (requester : User) (method_post : Bool) (form : AuthForm)
    (st : AuthState) : Response × AuthState :=
  if requester.is_authenticated then (.redirect "details", st)
  else if method_post && form.is_valid then
    (.redirect "signin",
      { st with accounts := st.accounts ++ [(form.username, form.password)] })
  else (.rendered "sign_up.html" [], st)

/-- The `signin` view: an already-authenticated requester is redirected to
`details` at once; otherwise a valid POST with correct credentials logs the
session in and redirects to `details`, and anything else re-renders the
sign-in page. -/
def signin (requester : User) (method_post : Bool) (form : AuthForm)
    (st : AuthState) : Response × AuthState :=
  if requester.is_authenticated then (.redirect "details", st)
  else if method_post && form.is_valid then
    if authenticate st form.username form.password then
      (.redirect "details", { st with session := some form.username })
    else (.rendered "sign_in.html" [], st)
  else (.rendered "sign_in.html" [], st)

/-- One request against the record store, for reasoning about operation
sequences: create (`addnew`), edit, delete, list (`details`) and export. -/
inductive Op where
  | create (u : User) (method_post : Bool) (form : MyTableForm)
  | editRec (u : User) (req_id : Nat) (method_post : Bool) (form : MyTableForm)
  | deleteRec (u : User) (req_id : Nat)
  | listRec (u : User) (params : FilterParams)
  | exportRec (u : User) (now : String)

/-- The store after one request: `details` and `export_excel` never mutate the
store; the mutating views contribute their updated state. -/
def applyOp (db : DB) (op : Op) : DB :=
  match op with
  | .create u m form => (addnew u m form db).2
  | .editRec u i m form => (edit u i m form db).2
  | .deleteRec u i => (delete u i db).2
  | .listRec _ _ => db
  | .exportRec _ _ => db

/-! Concrete identities, records and store used by the closed instance
theorems below. -/

def alice : User := ⟨1, "alice", "pw1", false, true⟩

def bob : User := ⟨2, "bob", "pw2", false, true⟩

def adminUser : User := ⟨3, "root", "pw3", true, true⟩

def anon : User := ⟨0, "anon", "", false, false⟩

def rec1 : MyTable :=
  ⟨1, alice, "Acme", "2024-01-01", "2024-01-02", "555", "Vera", "VCo",
   "10", "USD", "fixed", "open", "ok"⟩

def rec2 : MyTable :=
  ⟨2, bob, "Bolt", "2024-02-01", "2024-02-02", "556", "Vern", "WCo",
   "20", "EUR", "hourly", "done", "hm"⟩

def db0 : DB := ⟨[rec1, rec2], 3⟩

/-- A valid submission whose field data claims `bob` as owner (a forged owner
value in the POST body). -/
def form1 : MyTableForm := ⟨true, { rec1 with client_name := "Acme2", user := bob }⟩

/-- C1: for every authenticated non-administrator identity, the record set the
`details` view hands to the template contains only records whose owner equals
that identity, whatever filter parameters are supplied. -/
theorem claim1_details_nonadmin_only_owned (u : User) (params : FilterParams)
    (db : DB) (l : List MyTable) (r : MyTable)
    (hauth : u.is_authenticated = true) (hadmin : u.is_superuser = false)
    (hres : details u params db = Response.rendered "details.html" l)
    (hmem : r ∈ l) : r.user = u := by
  simp only [details, hauth, Bool.not_true, Bool.false_eq_true, if_false,
    Response.rendered.injEq, true_and] at hres
  rw [← hres] at hmem
  have h1 := (List.mem_filter.mp hmem).1
  rw [scopedRecords, hadmin, if_neg (by simp)] at h1
  have h2 := (List.mem_filter.mp h1).2
  simpa using h2

/-- C1 witness: `alice` listing with no filters sees exactly her record, whose
owner is `alice`. -/
theorem claim1_witness : rec1.user = alice :=
  claim1_details_nonadmin_only_owned alice [] db0 [rec1] rec1 rfl rfl
    (by decide) (by decide)

/-- C2: for every authenticated administrator identity, the record set the
`details` view produces is the full store narrowed only by the caller's own
filter parameters; with no filter parameters supplied (passthrough) it is
exactly the full store. -/
theorem claim2_details_admin_full_store (u : User) (params : FilterParams)
    (db : DB) (hauth : u.is_authenticated = true)
    (hadmin : u.is_superuser = true) :
    details u params db =
      Response.rendered "details.html" (FormFilter params db.records) ∧
    details u [] db = Response.rendered "details.html" db.records := by
  constructor
  · simp [details, hauth, scopedRecords, hadmin]
  · simp [details, hauth, scopedRecords, hadmin, FormFilter]

/-- C2 witness: the administrator listing with no filters sees the whole
store. -/
theorem claim2_witness :
    details adminUser [] db0 =
      Response.rendered "details.html" (FormFilter [] db0.records) ∧
    details adminUser [] db0 = Response.rendered "details.html" db0.records :=
  claim2_details_admin_full_store adminUser [] db0 rfl rfl

/-- C3: for every authenticated non-administrator and every existing record
they do not own, `edit` and `delete` each answer 403 Forbidden and leave the
store unchanged. -/
theorem claim3_edit_delete_forbidden (u : User) (db : DB) (i : Nat)
    (r : MyTable) (m : Bool) (form : MyTableForm)
    (hauth : u.is_authenticated = true) (hadmin : u.is_superuser = false)
    (hget : db.get i = some r) (hown : r.user ≠ u) :
    edit u i m form db =
      (Response.forbidden "You do not have permission to edit this record.", db) ∧
    delete u i db =
      (Response.forbidden "You do not have permission to delete this record.", db) := by
  have hbeq : (r.user == u) = false := by simp [hown]
  constructor
  · rw [edit, hauth]
    simp only [Bool.not_true, Bool.false_eq_true, if_false, hget, hbeq, hadmin]
    simp
  · rw [delete, hauth]
    simp only [Bool.not_true, Bool.false_eq_true, if_false, hget, hbeq, hadmin]
    simp

/-- C3 witness: `alice` editing or deleting `bob`'s record is refused and the
store is untouched. -/
theorem claim3_witness :
    edit alice 2 true form1 db0 =
      (Response.forbidden "You do not have permission to edit this record.", db0) ∧
    delete alice 2 db0 =
      (Response.forbidden "You do not have permission to delete this record.", db0) :=
  claim3_edit_delete_forbidden alice db0 2 rec2 true form1 rfl rfl
    (by decide) (by decide)

/-- C6: every valid create submission stores a record owned by the
authenticated requester, whatever owner value the submitted form data
carried. -/
theorem claim6_addnew_owner_is_requester (u : User) (form : MyTableForm)
    (db : DB) (hauth : u.is_authenticated = true)
    (hvalid : form.is_valid = true) :
    addnew u true form db =
      (Response.redirect "details",
        { records := db.records ++
            [{ form.instance_data with id := db.next_id, user := u }],
          next_id := db.next_id + 1 }) ∧
    ({ form.instance_data with id := db.next_id, user := u } : MyTable).user = u := by
  constructor
  · simp [addnew, hauth, hvalid]
  · rfl

/-- C6 witness: `alice` submitting a form whose data names `bob` as owner
still stores the record as owned by `alice`. -/
theorem claim6_witness :
    addnew alice true form1 db0 =
      (Response.redirect "details",
        { records := db0.records ++
            [{ form1.instance_data with id := db0.next_id, user := alice }],
          next_id := db0.next_id + 1 }) ∧
    ({ form1.instance_data with id := db0.next_id, user := alice } : MyTable).user = alice :=
  claim6_addnew_owner_is_requester alice form1 db0 rfl rfl

/-- C8: for every authenticated requester, an `edit` or `delete` request
naming a record id absent from the store answers the server-error response
"Record not found." (neither a silent success nor a Forbidden) and leaves the
store unchanged. -/
theorem claim8_missing_record_server_error (u : User) (db : DB) (i : Nat)
    (m : Bool) (form : MyTableForm)
    (hauth : u.is_authenticated = true) (hget : db.get i = none) :
    edit u i m form db = (Response.serverError "Record not found.", db) ∧
    delete u i db = (Response.serverError "Record not found.", db) := by
  constructor
  · rw [edit, hauth]
    simp only [Bool.not_true, Bool.false_eq_true, if_false, hget]
  · rw [delete, hauth]
    simp only [Bool.not_true, Bool.false_eq_true, if_false, hget]

/-- C8 witness: id 99 is absent, so `edit` and `delete` both answer the
server error and keep the store. -/
theorem claim8_witness :
    edit alice 99 true form1 db0 = (Response.serverError "Record not found.", db0) ∧
    delete alice 99 db0 = (Response.serverError "Record not found.", db0) :=
  claim8_missing_record_server_error alice db0 99 true form1 rfl (by decide)

/-- C10: an already-authenticated requester is redirected to `details` by both
`signup` and `signin`, with the account and session state untouched, whatever
method and form data the request carried. -/
theorem claim10_authenticated_signup_signin_redirect (requester : User)
    (m1 m2 : Bool) (f1 f2 : AuthForm) (st : AuthState)
    (hauth : requester.is_authenticated = true) :
    signup requester m1 f1 st = (Response.redirect "details", st) ∧
    signin requester m2 f2 st = (Response.redirect "details", st) := by
  constructor
  · rw [signup, if_pos hauth]
  · rw [signin, if_pos hauth]

/-- C10 witness: logged-in `alice` posting valid sign-up and sign-in forms is
redirected to `details` and no account or session state changes. -/
theorem claim10_witness :
    signup alice true ⟨true, "mallory", "x"⟩ ⟨[], none⟩ =
      (Response.redirect "details", ⟨[], none⟩) ∧
    signin alice true ⟨true, "mallory", "x"⟩ ⟨[], none⟩ =
      (Response.redirect "details", ⟨[], none⟩) :=
  claim10_authenticated_signup_signin_redirect alice true true
    ⟨true, "mallory", "x"⟩ ⟨true, "mallory", "x"⟩ ⟨[], none⟩ rfl

/-- A serialization backend that always succeeds. -/
def okSave : List (List String) → Except String Unit := fun _ => Except.ok ()

/-- A serialization backend that raises. -/
def failSave : List (List String) → Except String Unit :=
  fun _ => Except.error "boom"

/-- C4: the availability clause fails on the code — `export_excel` carries no
`@login_required` decorator (every other protected view does), so an
unauthenticated requester is not redirected to `signin`: the handler runs and
serves the spreadsheet built from the anonymous scoping. -/
theorem claim4_export_no_auth_gate :
    anon.is_authenticated = false ∧
    export_excel anon "2024-01-01" db0 okSave =
      Except.ok (Response.file "Data_2024-01-01.xls" [userColumns]) ∧
    export_excel anon "2024-01-01" db0 okSave ≠
      Except.ok (Response.redirect "signin") := by
  refine ⟨rfl, rfl, ?_⟩
  intro h
  rw [show export_excel anon "2024-01-01" db0 okSave =
      Except.ok (Response.file "Data_2024-01-01.xls" [userColumns]) from rfl] at h
  exact absurd (Except.ok.inj h) (by decide)

/-- C5: for every requester and store, the export sheet is one header row plus
one row per record visible under the §4.1 scoping, and every row has 12 cells
for a superuser and 11 otherwise. -/
theorem claim5_export_shape (u : User) (db : DB) :
    (exportSheet u db).length = (scopedRecords u db.records).length + 1 ∧
    (exportSheet u db).all
      (fun row => row.length == if u.is_superuser then 12 else 11) = true := by
  constructor
  · cases h : u.is_superuser <;>
      simp [exportSheet, scopedRecords, h]
  · rw [List.all_eq_true]
    intro row hrow
    cases h : u.is_superuser
    · have hrow' : row ∈ userColumns ::
          (db.records.filter (fun r => r.user == u)).map userRow := by
        simpa [exportSheet, h] using hrow
      rcases List.mem_cons.mp hrow' with hhd | htl
      · subst hhd; simp [h, userColumns]
      · rcases List.mem_map.mp htl with ⟨r, _, hr⟩
        subst hr; simp [h, userRow]
    · have hrow' : row ∈ adminColumns :: db.records.map adminRow := by
        simpa [exportSheet, h] using hrow
      rcases List.mem_cons.mp hrow' with hhd | htl
      · subst hhd; simp [h, adminColumns]
      · rcases List.mem_map.mp htl with ⟨r, _, hr⟩
        subst hr; simp [h, adminRow]

/-- C9 counterexample: when the serialization backend raises, `export_excel`
itself returns no response at all — the error escapes the view uncaught — so
in particular it does not itself answer a server-error response. -/
theorem claim9_counterexample :
    export_excel adminUser "2024-01-01" db0 failSave = Except.error "boom" ∧
    (export_excel adminUser "2024-01-01" db0 failSave).isOk = false := by
  exact ⟨rfl, rfl⟩

/-- C9 amended: whenever the serialization backend raises, the raised error
propagates unchanged out of `export_excel` (there is no handler in the view;
the hosting framework, not the view, turns it into the generic server
error). -/
theorem claim9_export_error_propagates (u : User) (now : String) (db : DB)
    (save : List (List String) → Except String Unit) (e : String)
    (h : save (exportSheet u db) = Except.error e) :
    export_excel u now db save = Except.error e := by
  rw [export_excel, h]

/-- C9 witness: a backend raising "boom" makes the export propagate exactly
that error. -/
theorem claim9_witness :
    export_excel adminUser "t" db0 failSave = Except.error "boom" :=
  claim9_export_error_propagates adminUser "t" db0 failSave "boom" rfl

/-! Helper lemmas for the ownership invariant: how `DB.get` behaves under the
store updates the mutating views perform. -/

/-- The edit update rewrites a record in place: its primary key is kept. -/
theorem edit_update_id (form : MyTableForm) (j : Nat) (r : MyTable) :
    (if r.id == j then form.saveInstance r else r).id = r.id := by
  cases h : (r.id == j) <;> simp [h, MyTableForm.saveInstance]

/-- The edit update never touches a record's owner. -/
theorem edit_update_user (form : MyTableForm) (j : Nat) (r : MyTable) :
    (if r.id == j then form.saveInstance r else r).user = r.user := by
  cases h : (r.id == j) <;> simp [h, MyTableForm.saveInstance]

/-- Looking a key up after the edit update is looking it up before and then
updating the found record. -/
theorem find?_map_edit_update (l : List MyTable) (i j : Nat)
    (form : MyTableForm) :
    (l.map (fun r => if r.id == j then form.saveInstance r else r)).find?
        (fun r => r.id == i) =
      (l.find? (fun r => r.id == i)).map
        (fun r => if r.id == j then form.saveInstance r else r) := by
  rw [List.find?_map]
  have hpf : ((fun r : MyTable => r.id == i) ∘
      fun r => if r.id == j then form.saveInstance r else r) =
      fun r : MyTable => r.id == i := by
    funext r
    show ((if r.id == j then form.saveInstance r else r).id == i) = (r.id == i)
    rw [edit_update_id]
  rw [hpf]

/-- After deleting key `j`, looking `j` up finds nothing. -/
theorem find?_filter_delete_self (l : List MyTable) (j : Nat) :
    (l.filter (fun r => !(r.id == j))).find? (fun r => r.id == j) = none := by
  rw [List.find?_eq_none]
  intro x hx
  have hq := (List.mem_filter.mp hx).2
  simpa using hq

/-- Deleting key `j` does not disturb the lookup of any other key `i`. -/
theorem find?_filter_delete_ne (l : List MyTable) (i j : Nat) (h : i ≠ j) :
    (l.filter (fun r => !(r.id == j))).find? (fun r => r.id == i) =
      l.find? (fun r => r.id == i) := by
  induction l with
  | nil => rfl
  | cons x t ih =>
    rw [List.filter_cons]
    by_cases hx : x.id = j
    · have h1 : (!(x.id == j)) = false := by simp [hx]
      have h2 : (x.id == i) = false := by
        simp only [beq_eq_false_iff_ne, hx]
        omega
      rw [h1]
      simp only [Bool.false_eq_true, if_false, ih]
      simp only [List.find?]
      rw [h2]
    · have h1 : (!(x.id == j)) = true := by simp [hx]
      rw [h1, if_pos rfl]
      simp only [List.find?]
      cases hxi : (x.id == i) <;> simp only [hxi, ih]

/-- The store `addnew` leaves behind: unchanged, or the new owner-stamped
record appended with the key counter advanced. -/
theorem addnew_db (u : User) (m : Bool) (form : MyTableForm) (db : DB) :
    (addnew u m form db).2 = db ∨
    (addnew u m form db).2 =
      { records := db.records ++
          [{ form.instance_data with id := db.next_id, user := u }],
        next_id := db.next_id + 1 } := by
  unfold addnew
  cases ha : u.is_authenticated <;> cases m <;> cases hv : form.is_valid <;> simp

/-- The store `edit` leaves behind: unchanged, or the matching record rewritten
in place. -/
theorem edit_db (u : User) (i : Nat) (m : Bool) (form : MyTableForm) (db : DB) :
    (edit u i m form db).2 = db ∨
    (edit u i m form db).2 =
      { db with records :=
          db.records.map (fun r => if r.id == i then form.saveInstance r else r) } := by
  unfold edit
  split
  · simp
  · split
    · simp
    · split
      · simp
      · split
        · simp
        · simp

/-- The store `delete` leaves behind: unchanged, or every record with the
requested key removed. -/
theorem delete_db (u : User) (i : Nat) (db : DB) :
    (delete u i db).2 = db ∨
    (delete u i db).2 =
      { db with records := db.records.filter (fun r => !(r.id == i)) } := by
  unfold delete
  split
  · simp
  · split
    · simp
    · split
      · simp
      · simp

/-- No request ever lowers the autoincrement key counter. -/
theorem applyOp_next_le (db : DB) (op : Op) :
    db.next_id ≤ (applyOp db op).next_id := by
  cases op with
  | create u m form =>
    rcases addnew_db u m form db with h | h <;> simp only [applyOp, h] <;> omega
  | editRec u i m form =>
    rcases edit_db u i m form db with h | h <;> simp only [applyOp, h] <;> omega
  | deleteRec u i =>
    rcases delete_db u i db with h | h <;> simp only [applyOp, h] <;> omega
  | listRec u params => exact Nat.le_refl _
  | exportRec u now => exact Nat.le_refl _

/-- One request preserves the owner of every record visible before and after
it. -/
theorem applyOp_get_user (db : DB) (op : Op) (i : Nat) (r r' : MyTable)
    (h : db.get i = some r) (h' : (applyOp db op).get i = some r') :
    r'.user = r.user := by
  have h0 : db.records.find? (fun x : MyTable => x.id == i) = some r := h
  cases op with
  | create u m form =>
    rcases addnew_db u m form db with heq | heq <;> simp only [applyOp, heq] at h'
    · rw [h] at h'; cases h'; rfl
    · have h2 : (db.records ++
          [{ form.instance_data with id := db.next_id, user := u }]).find?
            (fun x : MyTable => x.id == i) = some r' := h'
      rw [List.find?_append, h0] at h2
      cases h2; rfl
  | editRec u j m form =>
    rcases edit_db u j m form db with heq | heq <;> simp only [applyOp, heq] at h'
    · rw [h] at h'; cases h'; rfl
    · have h2 : (db.records.map
          (fun r => if r.id == j then form.saveInstance r else r)).find?
            (fun r : MyTable => r.id == i) = some r' := h'
      rw [find?_map_edit_update, h0] at h2
      injection h2 with h3
      rw [← h3]
      exact edit_update_user form j r
  | deleteRec u j =>
    rcases delete_db u j db with heq | heq <;> simp only [applyOp, heq] at h'
    · rw [h] at h'; cases h'; rfl
    · have h2 : (db.records.filter (fun r : MyTable => !(r.id == j))).find?
          (fun r : MyTable => r.id == i) = some r' := h'
      by_cases hij : i = j
      · subst hij
        rw [find?_filter_delete_self] at h2
        cases h2
      · rw [find?_filter_delete_ne _ _ _ hij, h0] at h2
        cases h2; rfl
  | listRec u params =>
    simp only [applyOp] at h'
    rw [h] at h'; cases h'; rfl
  | exportRec u now =>
    simp only [applyOp] at h'
    rw [h] at h'; cases h'; rfl

/-- One request never resurrects an absent key that is below the key
counter. -/
theorem applyOp_get_none (db : DB) (op : Op) (i : Nat)
    (hlt : i < db.next_id) (h : db.get i = none) :
    (applyOp db op).get i = none := by
  have h0 : db.records.find? (fun x : MyTable => x.id == i) = none := h
  cases op with
  | create u m form =>
    rcases addnew_db u m form db with heq | heq <;> simp only [applyOp, heq]
    · exact h
    · show (db.records ++
          [({ form.instance_data with id := db.next_id, user := u } : MyTable)]).find?
            (fun x : MyTable => x.id == i) = none
      rw [List.find?_append, h0]
      have hni : (db.next_id == i) = false := by
        simp only [beq_eq_false_iff_ne]
        omega
      simp [hni]
  | editRec u j m form =>
    rcases edit_db u j m form db with heq | heq <;> simp only [applyOp, heq]
    · exact h
    · show (db.records.map
          (fun r => if r.id == j then form.saveInstance r else r)).find?
            (fun r : MyTable => r.id == i) = none
      rw [find?_map_edit_update, h0]
      rfl
  | deleteRec u j =>
    rcases delete_db u j db with heq | heq <;> simp only [applyOp, heq]
    · exact h
    · show (db.records.filter (fun r : MyTable => !(r.id == j))).find?
          (fun r : MyTable => r.id == i) = none
      by_cases hij : i = j
      · subst hij
        exact find?_filter_delete_self _ _
      · rw [find?_filter_delete_ne _ _ _ hij]
        exact h0
  | listRec u params => exact h
  | exportRec u now => exact h

/-- An absent key below the key counter stays absent along any request
sequence. -/
theorem foldl_get_none (ops : List Op) (db : DB) (i : Nat)
    (hlt : i < db.next_id) (h : db.get i = none) :
    (ops.foldl applyOp db).get i = none := by
  induction ops generalizing db with
  | nil => exact h
  | cons op rest ih =>
    rw [List.foldl_cons]
    exact ih (applyOp db op)
      (Nat.lt_of_lt_of_le hlt (applyOp_next_le db op))
      (applyOp_get_none db op i hlt h)

/-- Along any request sequence, a record visible at both ends under a key
below the key counter keeps its owner. -/
theorem foldl_get_user (ops : List Op) (db : DB) (i : Nat) (r r' : MyTable)
    (hlt : i < db.next_id) (h : db.get i = some r)
    (h' : (ops.foldl applyOp db).get i = some r') : r'.user = r.user := by
  induction ops generalizing db r with
  | nil =>
    rw [List.foldl_nil, h] at h'
    cases h'; rfl
  | cons op rest ih =>
    rw [List.foldl_cons] at h'
    cases h2 : (applyOp db op).get i with
    | none =>
      rw [foldl_get_none rest (applyOp db op) i
        (Nat.lt_of_lt_of_le hlt (applyOp_next_le db op)) h2] at h'
      cases h'
    | some r1 =>
      rw [ih (applyOp db op) r1
        (Nat.lt_of_lt_of_le hlt (applyOp_next_le db op)) h2 h']
      exact applyOp_get_user db op i r r1 h h2

/-- C7: on a well-formed store (every primary key below the autoincrement
counter), a record's owning user is never changed by any sequence of create,
edit, delete, list or export requests — in particular not by a successful
edit: whatever record a key still names after the sequence, its owner is the
owner the key named before it. -/
theorem claim7_owner_never_reassigned (ops : List Op) (db : DB) (i : Nat)
    (r r' : MyTable) (hwf : db.wf = true) (h : db.get i = some r)
    (h' : (ops.foldl applyOp db).get i = some r') : r'.user = r.user := by
  have h0 : db.records.find? (fun x : MyTable => x.id == i) = some r := h
  have hmem : r ∈ db.records := List.mem_of_find?_eq_some h0
  have hp := List.find?_some h0
  have hi : r.id = i := by simpa using hp
  rw [DB.wf, List.all_eq_true] at hwf
  have hlt : i < db.next_id := by
    have := hwf r hmem
    simp only [decide_eq_true_eq] at this
    omega
  exact foldl_get_user ops db i r r' hlt h h'

/-- C7 witness: after `alice` successfully edits her record (form data naming
`bob` as owner) and an export and a listing run, the record is still owned by
its creation-time owner. -/
theorem claim7_witness :
    ({ form1.instance_data with id := 1, user := alice } : MyTable).user = rec1.user :=
  claim7_owner_never_reassigned
    [Op.editRec alice 1 true form1, Op.exportRec adminUser "t", Op.listRec bob []]
    db0 1 rec1 { form1.instance_data with id := 1, user := alice }
    (by decide) (by decide) (by decide)

end App
